import Mathlib

/-!
Verification of the Workflow Chain Execution subsystem
(`utils/chain_executor.py` and `utils/chain_progress_manager.py`).

The Python code is shallowly embedded: dictionaries become association
lists (preserving insertion-order semantics of Python dicts), Python's
list indexing (including negative indices and `IndexError`) is modelled
by `pyGet` over `Int` indices, and fallible code returns `Except`.
-/

set_option autoImplicit false

namespace ChainExec

/-- JSON-ish values stored in a job-graph node's `inputs` map. -/
inductive Val where
  | vStr (s : String)
  | vInt (n : Int)
  | vBool (b : Bool)
  | vNull
  deriving DecidableEq, Repr

/-- A job-graph node: `{inputs: {field: value}}`.  A missing `inputs`
key in the Python dict behaves like an empty map, so we store the list
directly. -/
structure GraphNode where
  inputs : List (String × Val)
  deriving DecidableEq, Repr

/-- The API workflow: node-id keyed map (Python dict → assoc list). -/
abbrev Graph := List (String × GraphNode)

/-- `inputs.get(field)`: first entry with the key, Python dict lookup. -/
def lookupInputs : List (String × Val) → String → Option Val
  | [], _ => none
  | (k, w) :: rest, fld => if k = fld then some w else lookupInputs rest fld

/-- `inputs[field] = value`: Python dict assignment — replace the
existing entry in place, else append at the end. -/
def setInputs : List (String × Val) → String → Val → List (String × Val)
  | [], fld, v => [(fld, v)]
  | (k, w) :: rest, fld, v =>
      if k = fld then (fld, v) :: rest else (k, w) :: setInputs rest fld v

/-- `workflow_node_id in resolved_workflow` membership test. -/
def containsNode : Graph → String → Bool
  | [], _ => false
  | (nid, _) :: rest, nodeId =>
      if nid = nodeId then true else containsNode rest nodeId

/-- `resolved_workflow[nodeId]['inputs'][field] = value` (the node is
known to be present; on an absent node this is the identity). -/
def setInput : Graph → String → String → Val → Graph
  | [], _, _, _ => []
  | (nid, node) :: rest, nodeId, fld, v =>
      if nid = nodeId then (nid, ⟨setInputs node.inputs fld v⟩) :: rest
      else (nid, node) :: setInput rest nodeId fld v

/-- Read `graph[nodeId]['inputs'][field]`. -/
def getInput : Graph → String → String → Option Val
  | [], _, _ => none
  | (nid, node) :: rest, nodeId, fld =>
      if nid = nodeId then lookupInputs node.inputs fld
      else getInput rest nodeId fld

/-- Python list indexing `l[i]` with `Int` index: negative indices count
from the end; out-of-range gives `none` (an `IndexError` in Python). -/
def pyGet {α : Type} (l : List α) (i : Int) : Option α :=
  if 0 ≤ i then l.get? i.toNat
  else if 0 ≤ (l.length : Int) + i then l.get? ((l.length : Int) + i).toNat
  else none

/-- Helper for `splitOnDot`: split a character list at every `'.'`. -/
def splitChars : List Char → List String
  | [] => [""]
  | c :: rest =>
    let r := splitChars rest
    if c = '.' then "" :: r
    else
      match r with
      | [] => [String.mk [c]]
      | h :: t => String.mk (c :: h.data) :: t

/-- Python's `binding_key.split('.')` (kernel-reducible replacement for
`String.splitOn "."`; same semantics for a one-character separator). -/
def splitOnDot (s : String) : List String := splitChars s.data

/-- An input binding (`binding.get('type')` tagged union).  Fields read
with `.get(...)` may be absent, hence the `Option`s.  Any unknown type
string is a no-op branch in the Python `if/elif` chain. -/
inductive Binding where
  | bstatic (value : Val)
  | dynamic (sourceWorkflowIndex : Option Int) (sourceOutputNodeId : Option String)
  | otherType
  deriving DecidableEq, Repr

/-- A chain workflow node as far as binding resolution needs it:
`node.get('id')`. -/
structure ChainNode where
  id : String
  deriving DecidableEq, Repr

/-- The executor's `output_cache` dict. -/
abbrev OutputCache := List (String × String)

/-- Python dict lookup `cache.get(key)`. -/
def lookupCache : OutputCache → String → Option String
  | [], _ => none
  | (k, v) :: rest, key => if k = key then some v else lookupCache rest key

/-- Python dict assignment `cache[key] = value`. -/
def cacheInsert : OutputCache → String → String → OutputCache
  | [], key, v => [(key, v)]
  | (k, w) :: rest, key, v =>
      if k = key then (key, v) :: rest else (k, w) :: cacheInsert rest key v

/-- One entry of `cached_outputs` as produced by `_cache_output_files`. -/
structure CachedOutput where
  nodeId : String
  filename : String
  subfolder : String
  originalPath : String
  cachedPath : String
  deriving DecidableEq, Repr

/-- The cache-update loop after a successful step
(`chain_executor.py` lines 228–231):
`self.output_cache[f"{node_id}.{output['nodeId']}"] = output['cachedPath']`. -/
def updateOutputCache (cache : OutputCache) (chainNodeId : String)
    (outs : List CachedOutput) : OutputCache :=
  outs.foldl (fun c o => cacheInsert c (chainNodeId ++ "." ++ o.nodeId) o.cachedPath) cache

/-- One iteration of the `_resolve_input_bindings` loop for binding key
`bindingKey` and binding `b` against the accumulated resolved graph.
An `IndexError` from `self.chain_data['nodes'][source_workflow_index]`
is the only exceptional exit.  The `if cached_path:` truthiness check
(line 298) skips both a missing and an empty-string cached path with a
warning. -/
def resolveBinding (nodes : List ChainNode) (cache : OutputCache)
    (g : Graph) (bindingKey : String) (b : Binding) : Except String Graph :=
  match splitOnDot bindingKey with
  | [wfNodeId, widgetName] =>
    match b with
    | .bstatic v =>
        if containsNode g wfNodeId then .ok (setInput g wfNodeId widgetName v)
        else .ok g
    | .dynamic srcIdx srcOut =>
        match srcIdx, srcOut with
        | some idx, some outId =>
          if outId = "" then .ok g
          else if (nodes.length : Int) ≤ idx then .ok g
          else
            match pyGet nodes idx with
            | none => .error "IndexError: list index out of range"
            | some srcNode =>
              match lookupCache cache (srcNode.id ++ "." ++ outId) with
              | some cachedPath =>
                  if cachedPath = "" then .ok g
                  else if containsNode g wfNodeId then
                    .ok (setInput g wfNodeId widgetName (.vStr cachedPath))
                  else .ok g
              | none => .ok g
        | _, _ => .ok g
    | .otherType => .ok g
  | _ => .ok g

/-- `_resolve_input_bindings`: fold the binding loop over a deep copy of
the API workflow (deep copy is the identity on pure values). -/
def resolveInputBindings (nodes : List ChainNode) (cache : OutputCache)
    (apiWorkflow : Graph) (inputBindings : List (String × Binding)) : Except String Graph :=
  inputBindings.foldlM (fun acc kb => resolveBinding nodes cache acc kb.1 kb.2) apiWorkflow

/-! ### WebSocket monitoring (`_monitor_workflow_execution`) -/

/-- One file descriptor inside an `executed` payload or a history
entry; every field is read with `.get(...)`, hence the `Option`s. -/
structure FileInfo where
  filename : Option String
  subfolder : Option String
  ftype : Option String
  deriving DecidableEq, Repr

/-- One record appended to the monitoring loop's `outputs` list. -/
structure OutputRec where
  nodeId : String
  filename : Option String
  subfolder : String
  ftype : String
  deriving DecidableEq, Repr

/-- Build the appended record:
`{'nodeId': ..., 'filename': ..., 'subfolder': file_info.get('subfolder',''),
'type': file_info.get('type','output')}`. -/
def mkOutputRec (nodeId : String) (f : FileInfo) : OutputRec :=
  ⟨nodeId, f.filename, f.subfolder.getD "", f.ftype.getD "output"⟩

/-- `output_data.get('gifs') or output_data.get('images', [])`: the
gifs list when present and non-empty (Python truthiness), else the
images list (defaulting to empty). -/
def extractFiles (gifs images : Option (List FileInfo)) : List FileInfo :=
  match gifs with
  | some (f :: fs) => f :: fs
  | _ => images.getD []

/-- Decoded WebSocket messages, classified by `msg_type`; payload
fields are read with `.get(...)` so they may be absent. -/
inductive WsEvent where
  | executionError (promptId : Option String)
  | executed (promptId : Option String) (node : Option String)
      (gifs images : Option (List FileInfo))
  | executionCached (promptId : Option String)
  | executionSuccess (promptId : Option String)
  | executing (promptId : Option String) (node : Option String)
  | otherMsg
  deriving DecidableEq, Repr

/-- Mutable state of the monitoring loop: `outputs`, `completed_nodes`
(a set, kept duplicate-free by `insertNode`), and the
`execution_cached` flag. -/
structure MonState where
  outputs : List OutputRec
  completedNodes : List String
  executionCached : Bool
  deriving DecidableEq, Repr

/-- `completed_nodes.add(node_id)` set insertion. -/
def insertNode (l : List String) (n : String) : List String :=
  if n ∈ l then l else l ++ [n]

/-- Outcome of handling one WebSocket message in the loop body. -/
inductive MonStepOut where
  | cont (st : MonState)
  | broke (st : MonState)
  | failed
  deriving DecidableEq, Repr

/-- The body of the `while` loop of `_monitor_workflow_execution` for
one decoded message (lines 380–455 of `chain_executor.py`). -/
def monStep (pid : String) (outputIds : List String) (st : MonState) :
    WsEvent → MonStepOut
  | .executionError p => if p = some pid then .failed else .cont st
  | .executed p node gifs images =>
      match node with
      | some n =>
        if p = some pid ∧ n ∈ outputIds then
          let newOutputs :=
            match extractFiles gifs images with
            | [] => st.outputs
            | f :: _ => st.outputs ++ [mkOutputRec n f]
          let newCompleted := insertNode st.completedNodes n
          let st' : MonState := ⟨newOutputs, newCompleted, st.executionCached⟩
          if outputIds.length ≤ newCompleted.length then .broke st' else .cont st'
        else .cont st
      | none => .cont st
  | .executionCached p =>
      if p = some pid then .cont ⟨st.outputs, st.completedNodes, true⟩ else .cont st
  | .executionSuccess p =>
      if p = some pid ∧ outputIds.length ≤ st.completedNodes.length then .broke st
      else .cont st
  | .executing p node =>
      if node = none ∧ p = some pid then
        if st.executionCached then .broke st
        else if outputIds.length ≤ st.completedNodes.length then .broke st
        else .cont st
      else .cont st
  | .otherMsg => .cont st

/-- The monitoring `while` loop over the stream of received messages.
Exhausting the list without a `break` corresponds to the loop's
wall-clock timeout expiring. -/
def processEvents (pid : String) (outputIds : List String) :
    List WsEvent → MonState → MonStepOut
  | [], st => .cont st
  | e :: rest, st =>
      match monStep pid outputIds st e with
      | .cont st' => processEvents pid outputIds rest st'
      | .broke st' => .broke st'
      | .failed => .failed

/-- `_detect_output_nodes`: nodes whose inputs contain
`filename_prefix` and whose `save_output` (default true) is not
explicitly false. -/
def detectOutputNodes (g : Graph) : List String :=
  g.foldl (fun acc p =>
    match lookupInputs p.2.inputs "filename_prefix" with
    | none => acc
    | some _ =>
        match lookupInputs p.2.inputs "save_output" with
        | some (.vBool false) => acc
        | _ => acc ++ [p.1]) []

/-- A history entry's outputs map for one job id: node id →
`(gifs, images)`; `none` models a failed history query (non-200 status
or transport error, both of which yield `[]`). -/
abbrev HistoryResp := Option (List (String × (Option (List FileInfo) × Option (List FileInfo))))

/-- `_fetch_outputs_from_history`: iterate the detected output-node ids
in order and take the first file of `gifs` if non-empty else `images`. -/
def fetchOutputsFromHistory (outputIds : List String) (hist : HistoryResp) :
    List OutputRec :=
  match hist with
  | none => []
  | some outputsData =>
      outputIds.foldl (fun acc nid =>
        match outputsData.find? (fun q => q.1 == nid) with
        | none => acc
        | some q =>
            match extractFiles q.2.1 q.2.2 with
            | [] => acc
            | f :: _ => acc ++ [mkOutputRec nid f]) []

/-- `_monitor_workflow_execution`: detect output nodes, run the event
loop, then apply the failure/timeout and cached-execution post-loop
logic (lines 461–478). -/
def monitorWorkflowExecution (pid : String) (wf : Graph)
    (events : List WsEvent) (hist : HistoryResp) : List OutputRec :=
  let outputIds := detectOutputNodes wf
  if outputIds.isEmpty then []
  else
    match processEvents pid outputIds events ⟨[], [], false⟩ with
    | .failed => []
    | .cont _ => []
    | .broke st =>
        if st.executionCached ∧ st.outputs.length < outputIds.length then
          st.outputs ++ fetchOutputsFromHistory outputIds hist
        else st.outputs

/-- The submit/monitor outcome classification inside
`_execute_workflow_node` (lines 202–221): a `None` prompt id or an
empty outputs list makes the step fail. -/
structure NodeExecResult where
  success : Bool
  error : Option String
  deriving DecidableEq, Repr

/-- `_execute_workflow_node`'s treatment of the submission result and
the monitored outputs. -/
def workflowNodeStepResult (promptId : Option String) (outputs : List OutputRec) :
    NodeExecResult :=
  match promptId with
  | none => ⟨false, some "Failed to submit workflow"⟩
  | some _ =>
      if outputs.isEmpty then ⟨false, some "No outputs detected or execution failed"⟩
      else ⟨true, none⟩

/-! ### Progress manager (`chain_progress_manager.py`) -/

/-- The stored `current_execution` snapshot data, restricted to the
fields the executor mutates (chain id/name and timestamps omitted);
each workflow entry is its `(status, error)` pair. -/
structure Snapshot where
  isExecuting : Bool
  currentWorkflowIndex : Option Nat
  workflows : List (String × Option String)
  deriving DecidableEq, Repr

/-- One broadcast message as observers see it. -/
structure Broadcast where
  isExecuting : Bool
  currentWorkflowIndex : Option Nat
  completed : Bool
  success : Option Bool
  error : Option String
  deriving DecidableEq, Repr

/-- `workflows[i]['status'] = status; if error: workflows[i]['error'] = error`,
guarded by `0 <= workflow_index < len(workflows)`; a falsy (absent or
empty) error keeps the previous one. -/
def setWf (l : List (String × Option String)) (i : Nat) (status : String)
    (err : Option String) : List (String × Option String) :=
  match l.get? i with
  | none => l
  | some entry =>
      let newErr :=
        match err with
        | some e => if e = "" then entry.2 else some e
        | none => entry.2
      l.set i (status, newErr)

/-- `start_chain_execution`: build the initial snapshot (index 0, all
workflows pending) and broadcast it. -/
def startChainExecution (workflowCount : Nat) : Option Snapshot × List Broadcast :=
  (some ⟨true, some 0, List.replicate workflowCount ("pending", none)⟩,
   [⟨true, some 0, false, none, none⟩])

/-- `update_workflow_status`: no-op when no execution is stored;
otherwise update the entry, advance `currentWorkflowIndex` (to `i` on
running, to `i+1` on completed when not last), and broadcast. -/
def updateWorkflowStatus (st : Option Snapshot) (i : Nat) (status : String)
    (err : Option String) : Option Snapshot × List Broadcast :=
  match st with
  | none => (none, [])
  | some s =>
      let wfs := setWf s.workflows i status err
      let idx :=
        if status = "running" then some i
        else if status = "completed" ∧ i + 1 < wfs.length then some (i + 1)
        else s.currentWorkflowIndex
      (some ⟨s.isExecuting, idx, wfs⟩, [⟨s.isExecuting, idx, false, none, none⟩])

/-- `complete_chain_execution`: no-op when no execution is stored;
otherwise broadcast a terminal snapshot (`currentWorkflowIndex = null`,
`completed = true`) and clear the stored execution. -/
def completeChainExecution (st : Option Snapshot) (success : Bool)
    (err : Option String) : Option Snapshot × List Broadcast :=
  match st with
  | none => (none, [])
  | some _ => (none, [⟨false, none, true, some success, err⟩])

/-! ### The executor state machine (`execute` / `interrupt_execution`) -/

/-- Result of `execute()` as far as the claims observe it:
`status` is the executor's `self.status` field when `execute` returns,
`trace` the whole broadcast stream of the run, `nodesExecuted` the
number of `_execute_workflow_node` invocations (each remote submission
happens inside one), and `outputCache` the final `self.output_cache`. -/
structure ExecuteResult where
  success : Bool
  error : Option String
  status : String
  trace : List Broadcast
  pm : Option Snapshot
  nodesExecuted : Nat
  outputCache : OutputCache
  deriving Repr

/-- The per-step loop of `execute()` (lines 84–155), recursing on the
number of remaining steps with `i` the current index.  The work done by
`_execute_workflow_node` for step `i` is abstracted by oracles:
`stepOk i` says whether the step succeeded, `stepErr i` gives its error
string on failure, and `stepCache i` the output-cache update a
successful step performs. -/
def execLoop (intr stepOk : Nat → Bool) (stepErr : Nat → String)
    (stepCache : Nat → OutputCache → OutputCache) :
    Nat → Nat → Option Snapshot → OutputCache → ExecuteResult
  | _i, 0, pm, cache =>
      let r := completeChainExecution pm true none
      ⟨true, none, "completed", r.2, r.1, 0, cache⟩
  | i, rem + 1, pm, cache =>
      if intr i then
        let r := completeChainExecution pm false
          (some "Chain execution interrupted by user")
        ⟨false, some "Chain execution interrupted by user", "interrupted",
          r.2, r.1, 0, cache⟩
      else
        let u1 := updateWorkflowStatus pm i "running" none
        if stepOk i then
          let cache' := stepCache i cache
          let u2 := updateWorkflowStatus u1.1 i "completed" none
          if rem = 0 then
            let r := execLoop intr stepOk stepErr stepCache (i + 1) rem u2.1 cache'
            ⟨r.success, r.error, r.status, u1.2 ++ u2.2 ++ r.trace, r.pm,
              r.nodesExecuted + 1, r.outputCache⟩
          else
            let u3 := updateWorkflowStatus u2.1 (i + 1) "waiting" none
            let r := execLoop intr stepOk stepErr stepCache (i + 1) rem u3.1 cache'
            ⟨r.success, r.error, r.status, u1.2 ++ u2.2 ++ u3.2 ++ r.trace, r.pm,
              r.nodesExecuted + 1, r.outputCache⟩
        else
          let errMsg := "Workflow node " ++ toString (i + 1) ++ " failed: " ++ stepErr i
          let u2 := updateWorkflowStatus u1.1 i "failed" (some (stepErr i))
          let r := completeChainExecution u2.1 false (some errMsg)
          ⟨false, some errMsg, "failed", u1.2 ++ u2.2 ++ r.2, r.1, 1, cache⟩

/-- `execute()` (lines 59–177): set `self.status = "running"`, fail
fast with "No workflow nodes in chain" on an empty node list (before
any broadcast, submission, or cache write), else broadcast the start
snapshot and run the loop over the nodes. -/
def executeChain (intr stepOk : Nat → Bool) (stepErr : Nat → String)
    (stepCache : Nat → OutputCache → OutputCache) (nodes : List String) :
    ExecuteResult :=
  if nodes.isEmpty then
    ⟨false, some "No workflow nodes in chain", "running", [], none, 0, []⟩
  else
    let s0 := startChainExecution nodes.length
    let r := execLoop intr stepOk stepErr stepCache 0 nodes.length s0.1 []
    ⟨r.success, r.error, r.status, s0.2 ++ r.trace, r.pm, r.nodesExecuted,
      r.outputCache⟩

/-- Result of `interrupt_execution`. -/
structure InterruptResult where
  success : Bool
  message : Option String
  error : Option String
  broadcasts : List Broadcast
  pmAfter : Option Snapshot
  deriving DecidableEq, Repr

/-- `interrupt_execution` (lines 622–679): the cancel POST either
returns an HTTP status (`Except.ok`; any code is non-fatal and merely
logged when non-200) or raises (`Except.error`), in which case the
outer `except` handler returns `success: False` and the
progress-manager completion call never happens. -/
def interruptExecution (pm : Option Snapshot) (post : Except String Nat) :
    InterruptResult :=
  match post with
  | .error e => ⟨false, none, some e, [], pm⟩
  | .ok _status =>
      let r := completeChainExecution pm false
        (some "Chain execution interrupted by user")
      ⟨true, some "Chain execution interrupted", none, r.2, r.1⟩

/-- Checks that a broadcast index sequence consists of `some` values
that are non-decreasing (and at least `lo`), terminated by exactly one
final `none`. -/
def monoUntilNone : List (Option Nat) → Nat → Bool
  | [], _ => false
  | none :: rest, _ => rest.isEmpty
  | some k :: rest, lo => decide (lo ≤ k) && monoUntilNone rest k

/-! ### Concrete fixtures used by witnesses and counterexamples -/

/-- Two-step demo chain metadata. -/
def demoNodes : List ChainNode := [⟨"s0"⟩, ⟨"s1"⟩]

/-- A demo cached output produced by a step for workflow node `"9"`. -/
def demoOut : CachedOutput :=
  ⟨"9", "img.png", "", "output/img.png", "chain_result/exec-1_img.png"⟩

/-- A demo API workflow with one loadable node `"5"`. -/
def demoGraph : Graph := [("5", ⟨[("image", Val.vStr "default.png")]⟩)]

/-- A demo API workflow with a single output node `"9"`. -/
def demoSaveGraph : Graph :=
  [("3", ⟨[("seed", Val.vInt 7)]⟩),
   ("9", ⟨[("filename_prefix", Val.vStr "ComfyUI"), ("images", Val.vStr "link")]⟩)]

/-- A demo file descriptor as a history reply or `executed` payload
would carry it. -/
def demoFile : FileInfo := ⟨some "ComfyUI_00001_.png", some "", some "output"⟩

/-! ### Helper lemmas about the dict embeddings -/

theorem append_left_cancel_str {a b c : String} (h : a ++ b = a ++ c) : b = c := by
  have hd := congrArg String.data h
  simp only [String.data_append] at hd
  exact String.ext (List.append_cancel_left hd)

theorem lookupCache_cacheInsert_self (c : OutputCache) (k v : String) :
    lookupCache (cacheInsert c k v) k = some v := by
  induction c with
  | nil => simp [cacheInsert, lookupCache]
  | cons p rest ih =>
    obtain ⟨k', v'⟩ := p
    by_cases h : k' = k
    · simp [cacheInsert, h, lookupCache]
    · simp [cacheInsert, h, lookupCache, ih]

theorem lookupCache_cacheInsert_ne (c : OutputCache) (k v k' : String) (h : k' ≠ k) :
    lookupCache (cacheInsert c k v) k' = lookupCache c k' := by
  induction c with
  | nil => simp [cacheInsert, lookupCache, Ne.symm h]
  | cons p rest ih =>
    obtain ⟨k₀, v₀⟩ := p
    by_cases h₀ : k₀ = k
    · subst h₀
      simp [cacheInsert, lookupCache, Ne.symm h]
    · simp [cacheInsert, h₀, lookupCache, ih]

theorem lookupCache_updateOutputCache_notin (cache : OutputCache) (sid K : String)
    (outs : List CachedOutput) (h : ∀ o ∈ outs, o.nodeId ≠ K) :
    lookupCache (updateOutputCache cache sid outs) (sid ++ "." ++ K)
      = lookupCache cache (sid ++ "." ++ K) := by
  induction outs generalizing cache with
  | nil => rfl
  | cons o rest ih =>
    have hne : sid ++ "." ++ K ≠ sid ++ "." ++ o.nodeId := by
      intro he
      exact h o (List.mem_cons_self o rest) (append_left_cancel_str he).symm
    have hstep : updateOutputCache cache sid (o :: rest)
        = updateOutputCache (cacheInsert cache (sid ++ "." ++ o.nodeId) o.cachedPath) sid rest := rfl
    rw [hstep, ih _ (fun o' ho' => h o' (List.mem_cons_of_mem o ho')),
      lookupCache_cacheInsert_ne _ _ _ _ hne]

theorem lookupCache_updateOutputCache (cache : OutputCache) (sid K : String)
    (pre post : List CachedOutput) (o : CachedOutput)
    (ho : o.nodeId = K) (hpost : ∀ o' ∈ post, o'.nodeId ≠ K) :
    lookupCache (updateOutputCache cache sid (pre ++ o :: post)) (sid ++ "." ++ K)
      = some o.cachedPath := by
  have hsplit : updateOutputCache cache sid (pre ++ o :: post)
      = updateOutputCache
          (cacheInsert (updateOutputCache cache sid pre) (sid ++ "." ++ o.nodeId) o.cachedPath)
          sid post := by
    simp [updateOutputCache, List.foldl_append]
  rw [hsplit, lookupCache_updateOutputCache_notin _ _ _ _ hpost, ho,
    lookupCache_cacheInsert_self]

theorem lookupInputs_setInputs_self (l : List (String × Val)) (fld : String) (v : Val) :
    lookupInputs (setInputs l fld v) fld = some v := by
  induction l with
  | nil => simp [setInputs, lookupInputs]
  | cons p rest ih =>
    obtain ⟨k, w⟩ := p
    by_cases h : k = fld
    · simp [setInputs, h, lookupInputs]
    · simp [setInputs, h, lookupInputs, ih]

theorem getInput_setInput_self (g : Graph) (nodeId fld : String) (v : Val)
    (h : containsNode g nodeId = true) :
    getInput (setInput g nodeId fld v) nodeId fld = some v := by
  induction g with
  | nil => simp [containsNode] at h
  | cons p rest ih =>
    obtain ⟨nid, node⟩ := p
    by_cases he : nid = nodeId
    · subst he
      simp [setInput, getInput, lookupInputs_setInputs_self]
    · have h' : containsNode rest nodeId = true := by
        simpa [containsNode, he] using h
      simp [setInput, he, getInput, ih h']

/-! ### C1: Output-Cache round trip -/

/-- Claim C1: when step N (chain node id `sid`) completes and caches an
output for workflow output node `K`, the cache entry is stored under
exactly the key `sid ++ "." ++ K`, and a later step whose dynamic
binding references `sourceWorkflowIndex = N` and
`sourceOutputNodeId = K` has the cached relative path written unchanged
into the bound field of its resolved graph.  The cached path carries a
non-emptiness hypothesis because `if cached_path:` skips a falsy path;
paths built by `_cache_output_files` (`"chain_result/{executionId}_{filename}"`)
are never empty. -/
theorem outputCache_roundTrip
    (cache : OutputCache) (nodes : List ChainNode) (stepN : Nat) (sid K : String)
    (pre post : List CachedOutput) (o : CachedOutput)
    (g : Graph) (bindingKey wfNodeId widgetName : String)
    (hnode : nodes.get? stepN = some ⟨sid⟩)
    (ho : o.nodeId = K)
    (hpost : ∀ o' ∈ post, o'.nodeId ≠ K)
    (hK : K ≠ "")
    (hp : o.cachedPath ≠ "")
    (hkey : splitOnDot bindingKey = [wfNodeId, widgetName])
    (htgt : containsNode g wfNodeId = true) :
    lookupCache (updateOutputCache cache sid (pre ++ o :: post)) (sid ++ "." ++ K)
      = some o.cachedPath
    ∧ resolveBinding nodes (updateOutputCache cache sid (pre ++ o :: post)) g bindingKey
        (.dynamic (some (stepN : Int)) (some K))
      = .ok (setInput g wfNodeId widgetName (.vStr o.cachedPath))
    ∧ getInput (setInput g wfNodeId widgetName (.vStr o.cachedPath)) wfNodeId widgetName
      = some (.vStr o.cachedPath) := by
  have hcache := lookupCache_updateOutputCache cache sid K pre post o ho hpost
  refine ⟨hcache, ?_, getInput_setInput_self g wfNodeId widgetName _ htgt⟩
  have hlt : stepN < nodes.length := by
    rcases List.get?_eq_some.mp hnode with ⟨h, _⟩
    exact h
  have hguard : ¬ ((nodes.length : Int) ≤ (stepN : Int)) := by
    exact_mod_cast Nat.not_le.mpr hlt
  have hpy : pyGet nodes (stepN : Int) = some ⟨sid⟩ := by
    simpa [pyGet] using hnode
  simp only [resolveBinding, hkey]
  simp [hK, hguard, hpy, hcache, hp, htgt]

/-- Witness for C1 at a concrete two-step chain. -/
theorem outputCache_roundTrip_witness :
    lookupCache (updateOutputCache [] "s0" [demoOut]) ("s0" ++ "." ++ "9")
      = some demoOut.cachedPath
    ∧ resolveBinding demoNodes (updateOutputCache [] "s0" [demoOut]) demoGraph "5.image"
        (.dynamic (some (0 : Nat)) (some "9"))
      = .ok (setInput demoGraph "5" "image" (.vStr demoOut.cachedPath))
    ∧ getInput (setInput demoGraph "5" "image" (.vStr demoOut.cachedPath)) "5" "image"
      = some (.vStr demoOut.cachedPath) :=
  outputCache_roundTrip [] demoNodes 0 "s0" "9" [] [] demoOut demoGraph
    "5.image" "5" "image" rfl rfl (by simp) (by decide) (by decide) (by decide)
    (by decide)

/-! ### C7: out-of-range / missing-cache dynamic bindings -/

/-- Counterexample for claim C7 as stated: a dynamic binding whose
`sourceWorkflowIndex` is `-2` in a one-step chain is out of range of the
step list, yet binding resolution raises an `IndexError` instead of
skipping the substitution. -/
theorem dynamicBinding_negOutOfRange_raises :
    resolveInputBindings [⟨"s0"⟩] [] demoGraph
        [("5.image", .dynamic (some (-2)) (some "9"))]
      = .error "IndexError: list index out of range"
    ∧ ∀ g', resolveInputBindings [⟨"s0"⟩] [] demoGraph
        [("5.image", .dynamic (some (-2)) (some "9"))] ≠ Except.ok g' := by
  have h1 : resolveInputBindings [⟨"s0"⟩] [] demoGraph
      [("5.image", .dynamic (some (-2)) (some "9"))]
      = .error "IndexError: list index out of range" := by rfl
  exact ⟨h1, fun g' hg => by rw [h1] at hg; exact Except.noConfusion hg⟩

/-- Claim C7 (amended): a dynamic binding whose `sourceWorkflowIndex` is
at least the number of steps, or whose computed cache key has no cached
artifact, is skipped without touching the graph and without raising; but
a `sourceWorkflowIndex` below `-(number of steps)` raises an
`IndexError` (the enclosing step then fails instead of proceeding). -/
theorem dynamicBinding_skip_or_raise (nodes : List ChainNode) (cache : OutputCache)
    (g : Graph) (key : String) (idx : Int) (outId : String) :
    ((nodes.length : Int) ≤ idx →
       resolveBinding nodes cache g key (.dynamic (some idx) (some outId)) = .ok g)
    ∧ (∀ srcNode, pyGet nodes idx = some srcNode →
       lookupCache cache (srcNode.id ++ "." ++ outId) = none →
       resolveBinding nodes cache g key (.dynamic (some idx) (some outId)) = .ok g)
    ∧ (∀ wfNodeId widgetName, splitOnDot key = [wfNodeId, widgetName] → outId ≠ "" →
       idx < -(nodes.length : Int) →
       resolveBinding nodes cache g key (.dynamic (some idx) (some outId))
         = .error "IndexError: list index out of range") := by
  refine ⟨?_, ?_, ?_⟩
  · intro hge
    match hk : splitOnDot key with
    | [wfNodeId, widgetName] =>
      simp only [resolveBinding, hk]
      by_cases hout : outId = "" <;> simp [hout, hge]
    | [] => simp [resolveBinding, hk]
    | [a] => simp [resolveBinding, hk]
    | a :: b :: c :: rest => simp [resolveBinding, hk]
  · intro srcNode hpy hmiss
    match hk : splitOnDot key with
    | [wfNodeId, widgetName] =>
      simp only [resolveBinding, hk]
      by_cases hout : outId = ""
      · simp [hout]
      · by_cases hge : (nodes.length : Int) ≤ idx
        · simp [hout, hge]
        · simp [hout, hge, hpy, hmiss]
    | [] => simp [resolveBinding, hk]
    | [a] => simp [resolveBinding, hk]
    | a :: b :: c :: rest => simp [resolveBinding, hk]
  · intro wfNodeId widgetName hk hout hlow
    have h0 : (0 : Int) ≤ (nodes.length : Int) := Int.ofNat_nonneg _
    have hge : ¬ ((nodes.length : Int) ≤ idx) := by omega
    have hpy : pyGet nodes idx = none := by
      unfold pyGet
      rw [if_neg (by omega), if_neg (by omega)]
    simp only [resolveBinding, hk]
    simp [hout, hge, hpy]

/-- Witness for the amended C7 at concrete inputs. -/
theorem dynamicBinding_skip_or_raise_witness :
    ((((demoNodes.length : Int) ≤ 7) →
       resolveBinding demoNodes [] demoGraph "5.image" (.dynamic (some 7) (some "9")) = .ok demoGraph)
    ∧ (∀ srcNode, pyGet demoNodes 7 = some srcNode →
       lookupCache [] (srcNode.id ++ "." ++ "9") = none →
       resolveBinding demoNodes [] demoGraph "5.image" (.dynamic (some 7) (some "9")) = .ok demoGraph)
    ∧ (∀ wfNodeId widgetName, splitOnDot "5.image" = [wfNodeId, widgetName] → "9" ≠ "" →
       (7 : Int) < -(demoNodes.length : Int) →
       resolveBinding demoNodes [] demoGraph "5.image" (.dynamic (some 7) (some "9"))
         = .error "IndexError: list index out of range"))
    ∧ resolveBinding demoNodes [] demoGraph "5.image" (.dynamic (some 7) (some "9")) = .ok demoGraph :=
  ⟨dynamicBinding_skip_or_raise demoNodes [] demoGraph "5.image" 7 "9",
   (dynamicBinding_skip_or_raise demoNodes [] demoGraph "5.image" 7 "9").1 (by decide)⟩

/-! ### C9: negative source indices resolve from the end -/

/-- Claim C9: a dynamic binding with a negative `sourceWorkflowIndex`
is not skipped as out of range: for `-(number of steps) ≤ i < 0` the
producing step is selected by indexing the step list from the end, and
on a cache hit the cached path (non-empty — `if cached_path:` skips a
falsy one) is substituted into the target field. -/
theorem negativeIndex_resolution (nodes : List ChainNode) (cache : OutputCache)
    (g : Graph) (key wfNodeId widgetName : String) (i : Int) (outId p : String)
    (srcNode : ChainNode)
    (hneg : i < 0) (hge : -(nodes.length : Int) ≤ i) :
    pyGet nodes i = nodes.get? (nodes.length - i.natAbs)
    ∧ (splitOnDot key = [wfNodeId, widgetName] → outId ≠ "" →
       pyGet nodes i = some srcNode →
       lookupCache cache (srcNode.id ++ "." ++ outId) = some p → p ≠ "" →
       containsNode g wfNodeId = true →
       resolveBinding nodes cache g key (.dynamic (some i) (some outId))
         = .ok (setInput g wfNodeId widgetName (.vStr p))) := by
  constructor
  · unfold pyGet
    rw [if_neg (by omega), if_pos (by omega)]
    congr 1
    omega
  · intro hk hout hpy hhit hp htgt
    have hge2 : ¬ ((nodes.length : Int) ≤ i) := by omega
    simp only [resolveBinding, hk]
    simp [hout, hge2, hpy, hhit, hp, htgt]

/-- Witness for C9 with index `-1` selecting the last of two steps. -/
theorem negativeIndex_resolution_witness :
    pyGet demoNodes (-1) = demoNodes.get? (demoNodes.length - (-1 : Int).natAbs)
    ∧ (splitOnDot "5.image" = ["5", "image"] → "9" ≠ "" →
       pyGet demoNodes (-1) = some ⟨"s1"⟩ →
       lookupCache [("s1" ++ "." ++ "9", "chain_result/exec-1_img.png")]
         (ChainNode.id ⟨"s1"⟩ ++ "." ++ "9") = some "chain_result/exec-1_img.png" →
       ("chain_result/exec-1_img.png" : String) ≠ "" →
       containsNode demoGraph "5" = true →
       resolveBinding demoNodes [("s1" ++ "." ++ "9", "chain_result/exec-1_img.png")]
         demoGraph "5.image" (.dynamic (some (-1)) (some "9"))
         = .ok (setInput demoGraph "5" "image" (.vStr "chain_result/exec-1_img.png")))
    ∧ resolveBinding demoNodes [("s1" ++ "." ++ "9", "chain_result/exec-1_img.png")]
        demoGraph "5.image" (.dynamic (some (-1)) (some "9"))
        = .ok (setInput demoGraph "5" "image" (.vStr "chain_result/exec-1_img.png")) :=
  ⟨(negativeIndex_resolution demoNodes [("s1" ++ "." ++ "9", "chain_result/exec-1_img.png")]
    demoGraph "5.image" "5" "image" (-1) "9" "chain_result/exec-1_img.png" ⟨"s1"⟩
    (by decide) (by decide)).1,
   (negativeIndex_resolution demoNodes [("s1" ++ "." ++ "9", "chain_result/exec-1_img.png")]
    demoGraph "5.image" "5" "image" (-1) "9" "chain_result/exec-1_img.png" ⟨"s1"⟩
    (by decide) (by decide)).2,
   (negativeIndex_resolution demoNodes [("s1" ++ "." ++ "9", "chain_result/exec-1_img.png")]
    demoGraph "5.image" "5" "image" (-1) "9" "chain_result/exec-1_img.png" ⟨"s1"⟩
    (by decide) (by decide)).2 (by decide) (by decide) (by decide) (by decide) (by decide)
    (by decide)⟩

/-! ### Monitoring-loop lemmas -/

theorem processEvents_append (pid : String) (ids : List String)
    (l1 l2 : List WsEvent) (st : MonState) :
    processEvents pid ids (l1 ++ l2) st =
      match processEvents pid ids l1 st with
      | .cont st' => processEvents pid ids l2 st'
      | .broke st' => .broke st'
      | .failed => .failed := by
  induction l1 generalizing st with
  | nil => rfl
  | cons e rest ih =>
    simp only [List.cons_append, processEvents]
    cases monStep pid ids st e with
    | cont st' => exact ih st'
    | broke st' => rfl
    | failed => rfl

/-! ### C2: cached-execution fallback -/

/-- Claim C2: once `execution_cached` has set the cached flag, an
`executing{node:null}` event for the job id stops the monitoring loop
immediately (whatever messages would follow are never consumed); when
the job was flagged cached and fewer outputs were captured than
detected output nodes, the outputs are backfilled from a history query
(first file of `gifs` if non-empty, else of `images`); in the concrete
scenario of only `execution_cached` then `executing{node:null}` with a
one-node one-image history reply, the returned outputs list has
length 1. -/
theorem cachedExecution_fallback (pid : String) (wf : Graph) (ids : List String)
    (pre rest : List WsEvent) (st : MonState) (hist : HistoryResp)
    (hids : detectOutputNodes wf = ids) (hne : ids ≠ [])
    (hpre : processEvents pid ids pre ⟨[], [], false⟩ = .cont st)
    (hcached : st.executionCached = true)
    (hshort : st.outputs.length < ids.length) :
    processEvents pid ids (pre ++ WsEvent.executing (some pid) none :: rest)
        ⟨[], [], false⟩ = .broke st
    ∧ monitorWorkflowExecution pid wf
        (pre ++ WsEvent.executing (some pid) none :: rest) hist
      = st.outputs ++ fetchOutputsFromHistory ids hist
    ∧ (monitorWorkflowExecution "p1" demoSaveGraph
        [WsEvent.executionCached (some "p1"), WsEvent.executing (some "p1") none]
        (some [("9", (none, some [demoFile]))])).length = 1 := by
  have hie : ids.isEmpty = false := by
    cases ids with
    | nil => exact absurd rfl hne
    | cons a as => rfl
  have hstop : processEvents pid ids
      (pre ++ WsEvent.executing (some pid) none :: rest) ⟨[], [], false⟩ = .broke st := by
    rw [processEvents_append, hpre]
    simp [processEvents, monStep, hcached]
  refine ⟨hstop, ?_, by rfl⟩
  simp only [monitorWorkflowExecution, hids, hie, Bool.false_eq_true, if_false, hstop]
  simp [hcached, hshort]

/-- Witness for C2: one output node, `execution_cached` then
`executing(null)`, history holding one image. -/
theorem cachedExecution_fallback_witness :
    processEvents "p1" ["9"]
        ([WsEvent.executionCached (some "p1")]
          ++ WsEvent.executing (some "p1") none :: []) ⟨[], [], false⟩
      = .broke ⟨[], [], true⟩
    ∧ monitorWorkflowExecution "p1" demoSaveGraph
        ([WsEvent.executionCached (some "p1")]
          ++ WsEvent.executing (some "p1") none :: [])
        (some [("9", (none, some [demoFile]))])
      = MonState.outputs ⟨[], [], true⟩
        ++ fetchOutputsFromHistory ["9"] (some [("9", (none, some [demoFile]))])
    ∧ (monitorWorkflowExecution "p1" demoSaveGraph
        [WsEvent.executionCached (some "p1"), WsEvent.executing (some "p1") none]
        (some [("9", (none, some [demoFile]))])).length = 1 :=
  cachedExecution_fallback "p1" demoSaveGraph ["9"]
    [WsEvent.executionCached (some "p1")] [] ⟨[], [], true⟩
    (some [("9", (none, some [demoFile]))])
    (by rfl) (by decide) (by rfl) (by rfl) (by decide)

/-! ### C10: executed events with no usable files -/

/-- Claim C10: an `executed` event for an output node whose payload has
neither a non-empty `gifs` list nor a non-empty `images` list still
marks the node complete without appending an output record, so the
loop can stop on "all output nodes completed" with strictly fewer
output records than output nodes — including an empty list, which the
calling step then treats as failure. -/
theorem executedEvent_emptyFiles (pid : String) (ids : List String) (st : MonState)
    (n : String) (gifs images : Option (List FileInfo))
    (hn : n ∈ ids) (hfiles : extractFiles gifs images = []) :
    (monStep pid ids st (.executed (some pid) (some n) gifs images)
      = if ids.length ≤ (insertNode st.completedNodes n).length
        then .broke ⟨st.outputs, insertNode st.completedNodes n, st.executionCached⟩
        else .cont ⟨st.outputs, insertNode st.completedNodes n, st.executionCached⟩)
    ∧ monitorWorkflowExecution "p1" demoSaveGraph
        [WsEvent.executed (some "p1") (some "9") none (some [])] none = []
    ∧ workflowNodeStepResult (some "p1") []
      = ⟨false, some "No outputs detected or execution failed"⟩ := by
  refine ⟨?_, by rfl, by rfl⟩
  simp [monStep, hn, hfiles]

/-- Witness for C10: the single output node `"9"` completes with an
empty `images` list. -/
theorem executedEvent_emptyFiles_witness :
    (monStep "p1" ["9"] ⟨[], [], false⟩
        (.executed (some "p1") (some "9") none (some []))
      = if (["9"] : List String).length ≤ (insertNode [] "9").length
        then .broke ⟨[], insertNode [] "9", false⟩
        else .cont ⟨[], insertNode [] "9", false⟩)
    ∧ monitorWorkflowExecution "p1" demoSaveGraph
        [WsEvent.executed (some "p1") (some "9") none (some [])] none = []
    ∧ workflowNodeStepResult (some "p1") []
      = ⟨false, some "No outputs detected or execution failed"⟩ :=
  executedEvent_emptyFiles "p1" ["9"] ⟨[], [], false⟩ "9" none (some [])
    (by decide) (by rfl)

/-! ### C3 / C4: the empty chain -/

/-- Counterexample for claim C3 as stated: on an empty chain
`execute()` does fail immediately with the "No workflow nodes in chain"
error, but the execution's status does not stay pending — `execute()`
sets `self.status = "running"` before the empty-list check, so the
status at return is "running". -/
theorem emptyChain_status_not_pending :
    (executeChain (fun _ => false) (fun _ => true) (fun _ => "")
        (fun _ c => c) []).status = "running"
    ∧ (executeChain (fun _ => false) (fun _ => true) (fun _ => "")
        (fun _ c => c) []).status ≠ "pending"
    ∧ (executeChain (fun _ => false) (fun _ => true) (fun _ => "")
        (fun _ c => c) []).success = false
    ∧ (executeChain (fun _ => false) (fun _ => true) (fun _ => "")
        (fun _ c => c) []).error = some "No workflow nodes in chain" :=
  ⟨rfl, by decide, rfl, rfl⟩

/-- Claim C3 (amended): for every chain whose step list is empty,
`execute()` fails immediately with the error "No workflow nodes in
chain"; the status, set to "running" on entry before the check, stays
"running" — it never reaches completed, failed or interrupted. -/
theorem emptyChain_failsImmediately (intr stepOk : Nat → Bool)
    (stepErr : Nat → String) (stepCache : Nat → OutputCache → OutputCache) :
    (executeChain intr stepOk stepErr stepCache []).success = false
    ∧ (executeChain intr stepOk stepErr stepCache []).error
      = some "No workflow nodes in chain"
    ∧ (executeChain intr stepOk stepErr stepCache []).status = "running" :=
  ⟨rfl, rfl, rfl⟩

/-- Claim C4: for every chain whose step list is empty, `execute()`
returns success false, executes no workflow node (every remote
submission happens inside `_execute_workflow_node`, so none is made),
broadcasts nothing, and leaves the Output Cache empty. -/
theorem emptyChain_noEffects (intr stepOk : Nat → Bool)
    (stepErr : Nat → String) (stepCache : Nat → OutputCache → OutputCache) :
    (executeChain intr stepOk stepErr stepCache []).success = false
    ∧ (executeChain intr stepOk stepErr stepCache []).nodesExecuted = 0
    ∧ (executeChain intr stepOk stepErr stepCache []).outputCache = []
    ∧ (executeChain intr stepOk stepErr stepCache []).trace = [] :=
  ⟨rfl, rfl, rfl, rfl⟩

/-! ### C5 / C6: interrupt_execution -/

/-- Counterexample for claim C5 as stated: interrupting while no
execution is running (stored snapshot `none`) returns success, but
`complete_chain_execution` early-returns on a missing snapshot, so no
chain-completion event is broadcast at all. -/
theorem interrupt_idle_noBroadcast :
    (interruptExecution none (Except.ok 200)).broadcasts = []
    ∧ (interruptExecution none (Except.ok 200)).success = true :=
  ⟨rfl, rfl⟩

/-- Claim C5 (amended): calling interrupt() when no execution is
running does not throw and (when the cancel POST itself does not raise)
still returns success true, but broadcasts no completion event; the
well-formed success:false completion broadcast is produced exactly when
an execution snapshot exists. -/
theorem interrupt_idle_behaviour :
    (∀ status : Nat,
       (interruptExecution none (Except.ok status)).success = true
       ∧ (interruptExecution none (Except.ok status)).broadcasts = [])
    ∧ (∀ s : Snapshot, ∀ status : Nat,
       (interruptExecution (some s) (Except.ok status)).broadcasts
         = [⟨false, none, true, some false,
             some "Chain execution interrupted by user"⟩]
       ∧ (interruptExecution (some s) (Except.ok status)).pmAfter = none) :=
  ⟨fun _ => ⟨rfl, rfl⟩, fun _ _ => ⟨rfl, rfl⟩⟩

/-- Counterexample for claim C6 as stated: a transport failure of the
cancellation call raises inside the `try` block, the outer handler
catches it, and interrupt() returns success false — not success true. -/
theorem interrupt_transportFailure_notSuccess :
    (interruptExecution none (Except.error "Cannot connect to host")).success = false
    ∧ (interruptExecution none (Except.error "Cannot connect to host")).error
      = some "Cannot connect to host" :=
  ⟨rfl, rfl⟩

/-- Claim C6 (amended): for every HTTP response outcome of the remote
cancellation call — any status code, 200 or not — interrupt() returns
success true (a non-200 is only logged); but a transport-level failure
that raises during the call is caught by the outer handler and makes
interrupt() return success false carrying the error (it still does not
propagate the exception to its caller). -/
theorem interrupt_cancelOutcome (pm : Option Snapshot) :
    (∀ status : Nat, (interruptExecution pm (Except.ok status)).success = true)
    ∧ (∀ e : String,
       (interruptExecution pm (Except.error e)).success = false
       ∧ (interruptExecution pm (Except.error e)).error = some e) :=
  ⟨fun _ => rfl, fun _ => ⟨rfl, rfl⟩⟩

/-! ### C8: monotone progress indices -/

theorem setWf_length (l : List (String × Option String)) (i : Nat) (status : String)
    (err : Option String) : (setWf l i status err).length = l.length := by
  unfold setWf
  cases l.get? i with
  | none => rfl
  | some entry => simp

theorem updateWS_running (s : Snapshot) (i : Nat) :
    updateWorkflowStatus (some s) i "running" none
      = (some ⟨s.isExecuting, some i, setWf s.workflows i "running" none⟩,
         [⟨s.isExecuting, some i, false, none, none⟩]) := rfl

theorem updateWS_waiting (s : Snapshot) (i : Nat) :
    updateWorkflowStatus (some s) i "waiting" none
      = (some ⟨s.isExecuting, s.currentWorkflowIndex, setWf s.workflows i "waiting" none⟩,
         [⟨s.isExecuting, s.currentWorkflowIndex, false, none, none⟩]) := rfl

theorem updateWS_failed (s : Snapshot) (i : Nat) (err : Option String) :
    updateWorkflowStatus (some s) i "failed" err
      = (some ⟨s.isExecuting, s.currentWorkflowIndex, setWf s.workflows i "failed" err⟩,
         [⟨s.isExecuting, s.currentWorkflowIndex, false, none, none⟩]) := rfl

theorem updateWS_completed (s : Snapshot) (i : Nat) :
    updateWorkflowStatus (some s) i "completed" none
      = (some ⟨s.isExecuting,
           if i + 1 < s.workflows.length then some (i + 1) else s.currentWorkflowIndex,
           setWf s.workflows i "completed" none⟩,
         [⟨s.isExecuting,
           if i + 1 < s.workflows.length then some (i + 1) else s.currentWorkflowIndex,
           false, none, none⟩]) := by
  by_cases hadv : i + 1 < s.workflows.length <;>
    simp [updateWorkflowStatus, setWf_length, hadv]

theorem execLoop_trace_mono (intr stepOk : Nat → Bool) (stepErr : Nat → String)
    (stepCache : Nat → OutputCache → OutputCache) :
    ∀ rem i j (s : Snapshot) (cache : OutputCache),
      s.currentWorkflowIndex = some j → j ≤ i → i + rem = s.workflows.length →
      monoUntilNone
        ((execLoop intr stepOk stepErr stepCache i rem (some s) cache).trace.map
          Broadcast.currentWorkflowIndex) j = true := by
  intro rem
  induction rem with
  | zero =>
    intro i j s cache hidx hle hlen
    rfl
  | succ k ih =>
    intro i j s cache hidx hle hlen
    by_cases hintr : intr i = true
    · simp [execLoop, hintr, completeChainExecution, monoUntilNone]
    · rw [Bool.not_eq_true] at hintr
      by_cases hok : stepOk i = true
      · rcases Nat.eq_zero_or_pos k with hk | hk
        · subst hk
          have hnadv : ¬ (i + 1 < s.workflows.length) := by omega
          simp only [execLoop, hintr, hok, Bool.false_eq_true, if_false, if_true,
            updateWS_running, updateWS_completed, completeChainExecution,
            setWf_length, hnadv, reduceIte,
            List.cons_append, List.nil_append, List.map_cons, List.map_nil,
            List.map_append, List.singleton_append, List.append_nil]
          simp only [monoUntilNone, Bool.and_eq_true, decide_eq_true_eq]
          refine ⟨hle, ?_⟩
          simp [monoUntilNone]
        · have hkne : k ≠ 0 := Nat.pos_iff_ne_zero.mp hk
          have hadv : i + 1 < s.workflows.length := by omega
          simp only [execLoop, hintr, hok, hkne, Bool.false_eq_true, if_false, if_true,
            updateWS_running, updateWS_completed, updateWS_waiting, completeChainExecution,
            setWf_length, hadv, reduceIte,
            List.cons_append, List.nil_append, List.map_cons, List.map_nil,
            List.map_append, List.singleton_append, List.append_nil]
          simp only [monoUntilNone, Bool.and_eq_true, decide_eq_true_eq]
          refine ⟨hle, by omega, by omega, ?_⟩
          exact ih (i + 1) (i + 1)
            ⟨s.isExecuting, some (i + 1),
             setWf (setWf (setWf s.workflows i "running" none) i "completed" none)
               (i + 1) "waiting" none⟩ (stepCache i cache)
            rfl (le_refl (i + 1))
            (by simp only [setWf_length]; omega)
      · rw [Bool.not_eq_true] at hok
        simp only [execLoop, hintr, hok, Bool.false_eq_true, if_false,
          updateWS_running, updateWS_failed, completeChainExecution,
          List.cons_append, List.nil_append, List.map_cons, List.map_nil,
          List.map_append, List.singleton_append, List.append_nil]
        simp [monoUntilNone, hle]


/-- Claim C8: across the broadcasts of one chain run — the start
snapshot, then every step-status update — `currentWorkflowIndex` is
monotonically non-decreasing, until the terminal completion event,
which sets it to null (and is the final broadcast). -/
theorem progressIndex_monotone (intr stepOk : Nat → Bool) (stepErr : Nat → String)
    (stepCache : Nat → OutputCache → OutputCache) (nodes : List String)
    (h : nodes ≠ []) :
    monoUntilNone
      ((executeChain intr stepOk stepErr stepCache nodes).trace.map
        Broadcast.currentWorkflowIndex) 0 = true := by
  have hie : nodes.isEmpty = false := by
    cases nodes with
    | nil => exact absurd rfl h
    | cons a as => rfl
  have hloop := execLoop_trace_mono intr stepOk stepErr stepCache nodes.length 0 0
    ⟨true, some 0, List.replicate nodes.length ("pending", none)⟩ []
    rfl (le_refl 0) (by simp)
  simp only [executeChain, hie, Bool.false_eq_true, if_false, reduceIte,
    startChainExecution, List.map_append, List.map_cons, List.map_nil,
    List.cons_append, List.nil_append]
  simp only [monoUntilNone, Bool.and_eq_true, decide_eq_true_eq]
  exact ⟨le_refl 0, hloop⟩

/-- Witness for C8: a two-step chain whose first step succeeds and
whose second step fails. -/
theorem progressIndex_monotone_witness :
    monoUntilNone
      ((executeChain (fun _ => false) (fun i => i == 0) (fun _ => "boom")
          (fun _ c => c) ["a", "b"]).trace.map
        Broadcast.currentWorkflowIndex) 0 = true :=
  progressIndex_monotone (fun _ => false) (fun i => i == 0) (fun _ => "boom")
    (fun _ c => c) ["a", "b"] (by simp)

end ChainExec
